import Mathlib

/-!
Verification of the LockBox savings-vault state machine.

The repository ships the TypeScript test suite (`tests/lock_box_anchor.ts`),
the React data-access hooks (`lockbox-data-access.ts`, whose `LockBoxAccount`
interface declares the on-chain record layout), and the web UI. The Anchor
program that implements the vault state machine itself is not among the given
sources, so the instruction bodies below are modelled from the specification
(sections 3, 4.1, 4.2, 6 and 7), with the record layout taken from the
`LockBoxAccount` interface in the client.

Modelling conventions:
- identities (public keys) are modelled as `Nat`;
- lamport amounts are `u64` values, modelled as `Nat` with explicit
  `2 ^ 64` bounds where overflow matters;
- the registry maps an owner identity to at most one record (the on-chain
  program derives the record address deterministically from the owner key,
  so the store is a function from owner identity to `Option LockBox`);
- each operation is a transaction: it either returns the next state
  (`Except.ok`) or a typed error (`Except.error`), in which case no state
  was touched (Solana instructions revert atomically on error).
-/

/-- The size of the `u64` lamport domain. -/
def U64SIZE : Nat := 2 ^ 64

/-- Lamports reserved at record allocation for storage (rent exemption);
returned to the owner when the record account is closed. The exact
magnitude is not fixed by the specification and is irrelevant to every
theorem below. -/
def rentReserve : Nat := 1350240

/-- The per-owner vault record. Field names follow the `LockBoxAccount`
interface declared in the client (`lockbox-data-access.ts`). -/
structure LockBox where
  owner : Nat
  targetAmount : Nat
  currentBalance : Nat
  createdAt : Int
  hasReachedTarget : Bool
  bump : Nat
  deriving DecidableEq, Repr

/-- The error taxonomy of the vault operations, from the specification's
interface table (section 6) and the error codes asserted by the test suite. -/
inductive VaultError where
  | InvalidTargetAmount
  | AlreadyExists
  | Unauthorized
  | NotFound
  | InvalidDepositAmount
  | InsufficientFunds
  | ArithmeticOverflow
  | TargetNotReached
  | InsufficientBalance
  deriving DecidableEq, Repr

/-- Global state: external wallet balances, the registry of records keyed by
owner identity, and the custody pool (vault PDA lamports) keyed by the same
owner identity. The pool is bookkept separately from the record's
`currentBalance` field; their agreement is the custody invariant. -/
structure VaultState where
  wallets : Nat → Nat
  records : Nat → Option LockBox
  pools : Nat → Nat

/-- Pointwise update of a keyed store. -/
def updFn {α : Type} (f : Nat → α) (k : Nat) (v : α) : Nat → α :=
  fun j => if j = k then v else f j

/-- Modelled from the spec: the lockbox-creation instruction
(`initializeLockbox` in the client) of the Anchor program, which is not in
the given sources. Spec 4.1: fails with `InvalidTargetAmount` if
`target_amount <= 0` (the argument is `u64`, so only `0` is possible);
fails with `AlreadyExists` if a record for `owner` is already present;
otherwise allocates the record and its custody pool at balance `0`, sets
`created_at` to the current time, and reserves the storage deposit. The
caller must be the owner (spec 4.1 authorization rule; the test
"Cannot create LockBox for someone else" shows a foreign signer fails). -/
def createLockbox (st : VaultState) (caller owner targetAmount : Nat)
    (now : Int) (bump : Nat) : Except VaultError VaultState :=
  if caller ≠ owner then .error .Unauthorized
  else if targetAmount = 0 then .error .InvalidTargetAmount
  else match st.records owner with
    | some _ => .error .AlreadyExists
    | none =>
      .ok { wallets := updFn st.wallets caller (st.wallets caller - rentReserve)
            records := updFn st.records owner
              (some { owner := owner, targetAmount := targetAmount,
                      currentBalance := 0, createdAt := now,
                      hasReachedTarget := false, bump := bump })
            pools := updFn st.pools owner 0 }

/-- Modelled from the spec: the `deposit` instruction of the Anchor program,
which is not in the given sources. The record is resolved and the caller
authorized before the instruction body runs (spec 4.1: the authorization
rule is enforced at every operation; on chain this is the account/seeds
constraint, checked before any amount validation). The body requires
`amount > 0` (else `InvalidDepositAmount`), a sufficient external balance
(else `InsufficientFunds`), and checked `u64` addition (else
`ArithmeticOverflow`); on success it moves `amount` lamports from the
caller's wallet into the custody pool, adds `amount` to `currentBalance`,
and recomputes `hasReachedTarget`. -/
def deposit (st : VaultState) (caller owner amount : Nat) :
    Except VaultError VaultState :=
  match st.records owner with
  | none => .error .NotFound
  | some r =>
    if caller ≠ r.owner then .error .Unauthorized
    else if amount = 0 then .error .InvalidDepositAmount
    else if st.wallets caller < amount then .error .InsufficientFunds
    else if U64SIZE ≤ r.currentBalance + amount then .error .ArithmeticOverflow
    else
      .ok { wallets := updFn st.wallets caller (st.wallets caller - amount)
            records := updFn st.records owner
              (some { r with
                       currentBalance := r.currentBalance + amount
                       hasReachedTarget :=
                         decide (r.targetAmount ≤ r.currentBalance + amount) })
            pools := updFn st.pools owner (st.pools owner + amount) }

/-- Modelled from the spec: the `withdraw` instruction of the Anchor program,
which is not in the given sources. After resolution and authorization, the
gate requires the stored `hasReachedTarget` flag to be true (else
`TargetNotReached`), then `0 < amount <= currentBalance` (else
`InsufficientBalance`); the subtraction is checked (`ArithmeticOverflow` on
underflow, unreachable after the balance guard). On success it moves
`amount` lamports from the custody pool to the caller's wallet, subtracts
`amount` from `currentBalance`, and recomputes `hasReachedTarget` (which may
flip back to false). -/
def withdraw (st : VaultState) (caller owner amount : Nat) :
    Except VaultError VaultState :=
  match st.records owner with
  | none => .error .NotFound
  | some r =>
    if caller ≠ r.owner then .error .Unauthorized
    else if ¬ r.hasReachedTarget then .error .TargetNotReached
    else if amount = 0 ∨ r.currentBalance < amount then .error .InsufficientBalance
    else if r.currentBalance < amount then .error .ArithmeticOverflow
    else
      .ok { wallets := updFn st.wallets caller (st.wallets caller + amount)
            records := updFn st.records owner
              (some { r with
                       currentBalance := r.currentBalance - amount
                       hasReachedTarget :=
                         decide (r.targetAmount ≤ r.currentBalance - amount) })
            pools := updFn st.pools owner (st.pools owner - amount) }

/-- Modelled from the spec: the `emergencyWithdraw` instruction of the Anchor
program, which is not in the given sources. After resolution and
authorization it requires `currentBalance > 0` (else `InsufficientBalance`);
on success it transfers the entire `currentBalance` from the custody pool to
the owner, deletes the record, and returns the storage deposit. -/
def emergencyWithdraw (st : VaultState) (caller owner : Nat) :
    Except VaultError VaultState :=
  match st.records owner with
  | none => .error .NotFound
  | some r =>
    if caller ≠ r.owner then .error .Unauthorized
    else if r.currentBalance = 0 then .error .InsufficientBalance
    else
      .ok { wallets := updFn st.wallets caller
              (st.wallets caller + r.currentBalance + rentReserve)
            records := updFn st.records owner none
            pools := updFn st.pools owner (st.pools owner - r.currentBalance) }

/-- Modelled from the spec: the `closeLockbox` instruction of the Anchor
program, which is not in the given sources. After resolution and
authorization it requires `currentBalance == 0` (else `InsufficientBalance`);
on success it deletes the record and returns the reserved storage deposit to
the owner (no further funds move, the custody pool is already empty). -/
def closeLockbox (st : VaultState) (caller owner : Nat) :
    Except VaultError VaultState :=
  match st.records owner with
  | none => .error .NotFound
  | some r =>
    if caller ≠ r.owner then .error .Unauthorized
    else if r.currentBalance ≠ 0 then .error .InsufficientBalance
    else
      .ok { wallets := updFn st.wallets caller (st.wallets caller + rentReserve)
            records := updFn st.records owner none
            pools := st.pools }

/-- A sequence of deposits by the same caller into the same vault, stopped at
the first error. -/
def depositSeq (st : VaultState) (caller owner : Nat) :
    List Nat → Except VaultError VaultState
  | [] => .ok st
  | a :: rest =>
    match deposit st caller owner a with
    | .error e => .error e
    | .ok st' => depositSeq st' caller owner rest

/-- Custody invariant: for every existing record, the custody pool holds
exactly `currentBalance` lamports. -/
def poolInvariant (st : VaultState) : Prop :=
  ∀ o r, st.records o = some r → st.pools o = r.currentBalance

/-- The cached flag always equals the comparison it caches. -/
def flagAccurate (st : VaultState) : Prop :=
  ∀ o r, st.records o = some r →
    r.hasReachedTarget = decide (r.targetAmount ≤ r.currentBalance)

/-- Every record is stored under its own owner's key, so an owner identity
reaches at most one record. -/
def ownerKeyed (st : VaultState) : Prop :=
  ∀ o r, st.records o = some r → r.owner = o

/-- A state with no records, used to evaluate the theorems concretely. -/
def emptyState : VaultState :=
  { wallets := fun _ => 20 * rentReserve
    records := fun _ => none
    pools := fun _ => 0 }

/-- A concrete record below its target (balance 1, target 5). -/
def rBelow : LockBox :=
  { owner := 0, targetAmount := 5, currentBalance := 1, createdAt := 0,
    hasReachedTarget := false, bump := 255 }

/-- A concrete state holding `rBelow` with a matching custody pool. -/
def stBelow : VaultState :=
  { wallets := fun _ => 100
    records := fun o => if o = 0 then some rBelow else none
    pools := fun o => if o = 0 then 1 else 0 }

/-- A concrete record exactly at its target (balance 5, target 5). -/
def rAtTarget : LockBox :=
  { owner := 0, targetAmount := 5, currentBalance := 5, createdAt := 0,
    hasReachedTarget := true, bump := 255 }

/-- A concrete state holding `rAtTarget` with a matching custody pool. -/
def stAtTarget : VaultState :=
  { wallets := fun _ => 100
    records := fun o => if o = 0 then some rAtTarget else none
    pools := fun o => if o = 0 then 5 else 0 }

/-- A concrete record with zero balance. -/
def rEmptyBox : LockBox :=
  { owner := 0, targetAmount := 5, currentBalance := 0, createdAt := 0,
    hasReachedTarget := false, bump := 255 }

/-- A concrete state holding `rEmptyBox`. -/
def stEmptyBox : VaultState :=
  { wallets := fun _ => 100
    records := fun o => if o = 0 then some rEmptyBox else none
    pools := fun _ => 0 }

/-- A concrete record whose balance is near the top of the `u64` range. -/
def rNearMax : LockBox :=
  { owner := 0, targetAmount := 5, currentBalance := U64SIZE - 1, createdAt := 0,
    hasReachedTarget := true, bump := 255 }

/-- A concrete state holding `rNearMax` with a matching custody pool. -/
def stNearMax : VaultState :=
  { wallets := fun _ => 100
    records := fun o => if o = 0 then some rNearMax else none
    pools := fun o => if o = 0 then U64SIZE - 1 else 0 }

/-- The state after depositing 4 lamports into `stBelow` (balance reaches
the target of 5); used to evaluate the custody theorem concretely. -/
def stDep : VaultState :=
  match deposit stBelow 0 0 4 with
  | .ok s => s
  | .error _ => emptyState

/-- The state after identity 0 creates a vault with target 5 in
`emptyState`. -/
def stC5a : VaultState :=
  match createLockbox emptyState 0 0 5 0 255 with
  | .ok s => s
  | .error _ => emptyState

/-- The state after the deposit sequence 2, 2, 1 into `stC5a`. -/
def stC5b : VaultState :=
  match depositSeq stC5a 0 0 [2, 2, 1] with
  | .ok s => s
  | .error _ => emptyState

theorem updFn_self {α : Type} (f : Nat → α) (k : Nat) (v : α) :
    updFn f k v k = v := by
  simp [updFn]

theorem updFn_ne {α : Type} (f : Nat → α) (k j : Nat) (v : α) (h : j ≠ k) :
    updFn f k v j = f j := by
  simp [updFn, h]

theorem createLockbox_ok_elim {st st' : VaultState} {c o tgt bp : Nat} {now : Int}
    (h : createLockbox st c o tgt now bp = .ok st') :
    c = o ∧ tgt ≠ 0 ∧ st.records o = none ∧
    st' = { wallets := updFn st.wallets c (st.wallets c - rentReserve)
            records := updFn st.records o
              (some { owner := o, targetAmount := tgt, currentBalance := 0,
                      createdAt := now, hasReachedTarget := false, bump := bp })
            pools := updFn st.pools o 0 } := by
  unfold createLockbox at h
  split_ifs at h with h1 h2
  split at h
  · exact absurd h (by simp)
  next hrec =>
    simp only [Except.ok.injEq] at h
    push_neg at h1
    exact ⟨h1, h2, hrec, h.symm⟩

theorem deposit_ok_elim {st st' : VaultState} {c o a : Nat}
    (h : deposit st c o a = .ok st') :
    ∃ r, st.records o = some r ∧ c = r.owner ∧ a ≠ 0 ∧
      a ≤ st.wallets c ∧ r.currentBalance + a < U64SIZE ∧
      st' = { wallets := updFn st.wallets c (st.wallets c - a)
              records := updFn st.records o
                (some { r with
                         currentBalance := r.currentBalance + a
                         hasReachedTarget :=
                           decide (r.targetAmount ≤ r.currentBalance + a) })
              pools := updFn st.pools o (st.pools o + a) } := by
  unfold deposit at h
  split at h
  · exact absurd h (by simp)
  next r hrec =>
    split_ifs at h with h1 h2 h3 h4
    simp only [Except.ok.injEq] at h
    push_neg at h1 h3 h4
    exact ⟨r, hrec, h1, h2, h3, h4, h.symm⟩

theorem withdraw_ok_elim {st st' : VaultState} {c o a : Nat}
    (h : withdraw st c o a = .ok st') :
    ∃ r, st.records o = some r ∧ c = r.owner ∧ r.hasReachedTarget = true ∧
      a ≠ 0 ∧ a ≤ r.currentBalance ∧
      st' = { wallets := updFn st.wallets c (st.wallets c + a)
              records := updFn st.records o
                (some { r with
                         currentBalance := r.currentBalance - a
                         hasReachedTarget :=
                           decide (r.targetAmount ≤ r.currentBalance - a) })
              pools := updFn st.pools o (st.pools o - a) } := by
  unfold withdraw at h
  split at h
  · exact absurd h (by simp)
  next r hrec =>
    split_ifs at h with h1 h2 h3 h4
    simp only [Except.ok.injEq] at h
    push_neg at h1 h2 h3
    exact ⟨r, hrec, h1, by simpa using h2, h3.1, h3.2, h.symm⟩

theorem emergencyWithdraw_ok_elim {st st' : VaultState} {c o : Nat}
    (h : emergencyWithdraw st c o = .ok st') :
    ∃ r, st.records o = some r ∧ c = r.owner ∧ r.currentBalance ≠ 0 ∧
      st' = { wallets := updFn st.wallets c
                (st.wallets c + r.currentBalance + rentReserve)
              records := updFn st.records o none
              pools := updFn st.pools o (st.pools o - r.currentBalance) } := by
  unfold emergencyWithdraw at h
  split at h
  · exact absurd h (by simp)
  next r hrec =>
    split_ifs at h with h1 h2
    simp only [Except.ok.injEq] at h
    push_neg at h1
    exact ⟨r, hrec, h1, h2, h.symm⟩

theorem closeLockbox_ok_elim {st st' : VaultState} {c o : Nat}
    (h : closeLockbox st c o = .ok st') :
    ∃ r, st.records o = some r ∧ c = r.owner ∧ r.currentBalance = 0 ∧
      st' = { wallets := updFn st.wallets c (st.wallets c + rentReserve)
              records := updFn st.records o none
              pools := st.pools } := by
  unfold closeLockbox at h
  split at h
  · exact absurd h (by simp)
  next r hrec =>
    split_ifs at h with h1 h2
    simp only [Except.ok.injEq] at h
    push_neg at h1 h2
    exact ⟨r, hrec, h1, h2, h.symm⟩

theorem withdraw_target_gate {st : VaultState} {c o a : Nat} {r : LockBox}
    (hr : st.records o = some r) (hc : c = r.owner)
    (hfl : r.hasReachedTarget = false) :
    withdraw st c o a = .error .TargetNotReached := by
  simp [withdraw, hr, hc, hfl]

/-- C2: every operation invoked by a caller different from the record's
owner fails with the authorization error, even though the record exists
(no state is produced, so nothing is mutated). -/
theorem c2_unauthorized_rejected (st : VaultState) (c o a : Nat) (r : LockBox)
    (hr : st.records o = some r) (hc : c ≠ r.owner) :
    deposit st c o a = .error .Unauthorized ∧
    withdraw st c o a = .error .Unauthorized ∧
    emergencyWithdraw st c o = .error .Unauthorized ∧
    closeLockbox st c o = .error .Unauthorized := by
  refine ⟨?_, ?_, ?_, ?_⟩ <;>
    simp [deposit, withdraw, emergencyWithdraw, closeLockbox, hr, hc]

/-- C2 witness: a stranger (identity 1) is rejected on Alice's (identity 0)
existing vault by all four operations. -/
theorem c2_unauthorized_witness :
    deposit stBelow 1 0 1 = .error .Unauthorized ∧
    withdraw stBelow 1 0 1 = .error .Unauthorized ∧
    emergencyWithdraw stBelow 1 0 = .error .Unauthorized ∧
    closeLockbox stBelow 1 0 = .error .Unauthorized :=
  c2_unauthorized_rejected stBelow 1 0 1 rBelow rfl (by decide)

/-- C3: on a vault whose balance is strictly below its target, withdraw
fails with `TargetNotReached` (the gate is the stored flag, which equals the
live comparison); this includes a vault whose balance dropped back below the
target through an earlier successful withdrawal. -/
theorem c3_withdraw_below_target (st : VaultState) (c o a a1 a2 : Nat)
    (r : LockBox) (hr : st.records o = some r) (hc : c = r.owner)
    (hflag : r.hasReachedTarget = decide (r.targetAmount ≤ r.currentBalance)) :
    (r.currentBalance < r.targetAmount →
      withdraw st c o a = .error .TargetNotReached) ∧
    (∀ st', withdraw st c o a1 = .ok st' →
      ∀ r', st'.records o = some r' → r'.currentBalance < r'.targetAmount →
        withdraw st' c o a2 = .error .TargetNotReached) := by
  constructor
  · intro hlt
    have hfl : r.hasReachedTarget = false := by
      rw [hflag]
      simp [Nat.not_le_of_lt hlt]
    exact withdraw_target_gate hr hc hfl
  · intro st' hok r' hr' hlt
    obtain ⟨r0, hr0, hc0, hfl0, ha0, hle0, hst'⟩ := withdraw_ok_elim hok
    subst hst'
    simp [updFn] at hr'
    subst hr'
    dsimp only at hlt
    refine withdraw_target_gate
      (r := { r0 with
               currentBalance := r0.currentBalance - a1
               hasReachedTarget := decide (r0.targetAmount ≤ r0.currentBalance - a1) })
      (by simp [updFn]) (by simpa using hc0) ?_
    simp only [decide_eq_false_iff_not]
    omega

/-- C3 witness: identity 0's vault holds 1 lamport against a target of 5 and
withdrawal of 1 is refused with `TargetNotReached`. -/
theorem c3_withdraw_below_target_witness :
    withdraw stBelow 0 0 1 = .error .TargetNotReached :=
  (c3_withdraw_below_target stBelow 0 0 1 1 1 rBelow rfl rfl rfl).1 (by decide)

/-- C4: once the balance has reached the target (the comparison is
inclusive), a withdraw of any amount `0 < a <= currentBalance` succeeds and
reduces the balance by exactly `a`. -/
theorem c4_withdraw_after_target (st : VaultState) (c o a : Nat) (r : LockBox)
    (hr : st.records o = some r) (hc : c = r.owner)
    (hflag : r.hasReachedTarget = decide (r.targetAmount ≤ r.currentBalance))
    (hreached : r.targetAmount ≤ r.currentBalance)
    (ha : 0 < a) (hle : a ≤ r.currentBalance) :
    ∃ st', withdraw st c o a = .ok st' ∧
      ∃ r', st'.records o = some r' ∧
        r'.currentBalance + a = r.currentBalance ∧
        r'.targetAmount = r.targetAmount ∧ r'.owner = r.owner := by
  have hfl : r.hasReachedTarget = true := by
    rw [hflag]; exact decide_eq_true hreached
  have ha' : a ≠ 0 := Nat.pos_iff_ne_zero.mp ha
  have hnl : ¬ r.currentBalance < a := Nat.not_lt.mpr hle
  refine ⟨{ wallets := updFn st.wallets c (st.wallets c + a)
            records := updFn st.records o
              (some { r with
                       currentBalance := r.currentBalance - a
                       hasReachedTarget :=
                         decide (r.targetAmount ≤ r.currentBalance - a) })
            pools := updFn st.pools o (st.pools o - a) }, ?_,
         { r with
            currentBalance := r.currentBalance - a
            hasReachedTarget :=
              decide (r.targetAmount ≤ r.currentBalance - a) },
         ?_, ?_, rfl, rfl⟩
  · simp [withdraw, hr, hc, hfl, ha', hnl]
  · simp [updFn]
  · exact Nat.sub_add_cancel hle

/-- C4 witness: a deposit that makes the balance exactly equal to the target
(5 of 5) immediately unlocks withdrawal of the full balance. -/
theorem c4_withdraw_after_target_witness :
    ∃ st', withdraw stAtTarget 0 0 5 = .ok st' ∧
      ∃ r', st'.records 0 = some r' ∧
        r'.currentBalance + 5 = rAtTarget.currentBalance ∧
        r'.targetAmount = rAtTarget.targetAmount ∧
        r'.owner = rAtTarget.owner :=
  c4_withdraw_after_target stAtTarget 0 0 5 rAtTarget rfl rfl rfl
    (by decide) (by decide) (by decide)

/-- C9 counterexample: on an existing vault below its target (balance 1,
target 5), a withdraw of 2 (strictly more than the balance) fails with
`TargetNotReached`, not `InsufficientBalance`: the target gate is checked
before the balance bound, so the claim's error code is wrong for vaults
that have not reached their target. -/
theorem c9_overdraft_counterexample :
    rBelow.currentBalance < 2 ∧ stBelow.records 0 = some rBelow ∧
    withdraw stBelow 0 0 2 = .error .TargetNotReached ∧
    withdraw stBelow 0 0 2 ≠ .error .InsufficientBalance := by
  have h : withdraw stBelow 0 0 2 = .error .TargetNotReached := by
    simp [withdraw, stBelow, rBelow]
  refine ⟨by decide, rfl, h, ?_⟩
  rw [h]
  simp

/-- C9 (amended): on an existing vault that has reached its target, a
withdraw of more than the current balance fails with `InsufficientBalance`
(below the target the same withdraw also fails and mutates nothing, but
with `TargetNotReached`). -/
theorem c9_overdraft_insufficient (st : VaultState) (c o a : Nat) (r : LockBox)
    (hr : st.records o = some r) (hc : c = r.owner)
    (hfl : r.hasReachedTarget = true) (hgt : r.currentBalance < a) :
    withdraw st c o a = .error .InsufficientBalance := by
  simp [withdraw, hr, hc, hfl, hgt]

/-- C9 witness: on a vault at its target with balance 5, withdrawing 6 is
refused with `InsufficientBalance`. -/
theorem c9_overdraft_insufficient_witness :
    withdraw stAtTarget 0 0 6 = .error .InsufficientBalance :=
  c9_overdraft_insufficient stAtTarget 0 0 6 rAtTarget rfl rfl rfl (by decide)

/-- C6: emergencyWithdraw on an empty vault fails with `InsufficientBalance`
and the record remains; on a funded vault it drains the full balance to the
owner, deletes the record, and every subsequent operation by that owner
fails with `NotFound`. -/
theorem c6_emergency_withdraw (st : VaultState) (c o : Nat) (r : LockBox)
    (hr : st.records o = some r) (hc : c = r.owner) :
    (r.currentBalance = 0 →
      emergencyWithdraw st c o = .error .InsufficientBalance ∧
      st.records o = some r) ∧
    (0 < r.currentBalance →
      ∃ st', emergencyWithdraw st c o = .ok st' ∧
        st'.records o = none ∧
        st'.wallets c = st.wallets c + r.currentBalance + rentReserve ∧
        st'.pools o = st.pools o - r.currentBalance ∧
        (∀ a, deposit st' c o a = .error .NotFound) ∧
        (∀ a, withdraw st' c o a = .error .NotFound) ∧
        emergencyWithdraw st' c o = .error .NotFound ∧
        closeLockbox st' c o = .error .NotFound) := by
  constructor
  · intro h0
    exact ⟨by simp [emergencyWithdraw, hr, hc, h0], hr⟩
  · intro hpos
    have hne : r.currentBalance ≠ 0 := Nat.pos_iff_ne_zero.mp hpos
    refine ⟨{ wallets := updFn st.wallets c
                (st.wallets c + r.currentBalance + rentReserve)
              records := updFn st.records o none
              pools := updFn st.pools o (st.pools o - r.currentBalance) },
            ?_, ?_, ?_, ?_, ?_, ?_, ?_, ?_⟩
    · simp [emergencyWithdraw, hr, hc, hne]
    · simp [updFn]
    · simp [updFn]
    · simp [updFn]
    · intro a; simp [deposit, updFn]
    · intro a; simp [withdraw, updFn]
    · simp [emergencyWithdraw, updFn]
    · simp [closeLockbox, updFn]

/-- C6 witness: on the empty vault the emergency path is refused and the
record survives; on the below-target vault (balance 1) it succeeds, drains
exactly 1 lamport, deletes the record, and every retry reports `NotFound`. -/
theorem c6_emergency_withdraw_witness :
    (emergencyWithdraw stEmptyBox 0 0 = .error .InsufficientBalance ∧
      stEmptyBox.records 0 = some rEmptyBox) ∧
    ∃ st', emergencyWithdraw stBelow 0 0 = .ok st' ∧
      st'.records 0 = none ∧
      st'.wallets 0 = stBelow.wallets 0 + rBelow.currentBalance + rentReserve ∧
      st'.pools 0 = stBelow.pools 0 - rBelow.currentBalance ∧
      (∀ a, deposit st' 0 0 a = .error .NotFound) ∧
      (∀ a, withdraw st' 0 0 a = .error .NotFound) ∧
      emergencyWithdraw st' 0 0 = .error .NotFound ∧
      closeLockbox st' 0 0 = .error .NotFound :=
  ⟨(c6_emergency_withdraw stEmptyBox 0 0 rEmptyBox rfl rfl).1 rfl,
   (c6_emergency_withdraw stBelow 0 0 rBelow rfl rfl).2 (by decide)⟩

/-- C7: close fails with `InsufficientBalance` whenever the balance is
nonzero (the record stays in place), and succeeds exactly when the balance
is zero, deleting the record and returning the storage deposit. -/
theorem c7_close_requires_empty (st : VaultState) (c o : Nat) (r : LockBox)
    (hr : st.records o = some r) (hc : c = r.owner) :
    (r.currentBalance ≠ 0 →
      closeLockbox st c o = .error .InsufficientBalance ∧
      st.records o = some r) ∧
    (r.currentBalance = 0 →
      ∃ st', closeLockbox st c o = .ok st' ∧ st'.records o = none ∧
        st'.wallets c = st.wallets c + rentReserve) := by
  constructor
  · intro hne
    exact ⟨by simp [closeLockbox, hr, hc, hne], hr⟩
  · intro h0
    refine ⟨{ wallets := updFn st.wallets c (st.wallets c + rentReserve)
              records := updFn st.records o none
              pools := st.pools }, ?_, ?_, ?_⟩
    · simp [closeLockbox, hr, hc, h0]
    · simp [updFn]
    · simp [updFn]

/-- C7 witness: closing the funded vault (balance 1) is refused with
`InsufficientBalance`; closing the empty vault succeeds, deletes the record
and refunds the storage deposit. -/
theorem c7_close_requires_empty_witness :
    (closeLockbox stBelow 0 0 = .error .InsufficientBalance ∧
      stBelow.records 0 = some rBelow) ∧
    ∃ st', closeLockbox stEmptyBox 0 0 = .ok st' ∧ st'.records 0 = none ∧
      st'.wallets 0 = stEmptyBox.wallets 0 + rentReserve :=
  ⟨(c7_close_requires_empty stBelow 0 0 rBelow rfl rfl).1 (by decide),
   (c7_close_requires_empty stEmptyBox 0 0 rEmptyBox rfl rfl).2 rfl⟩

/-- C1: the custody invariant (pool lamports equal the record's
`currentBalance` at every existing record) is preserved by every successful
operation, and each operation moves exactly the stated amount through the
pool: deposit adds exactly `a`, withdraw removes exactly `a`, and
emergencyWithdraw removes exactly the recorded `currentBalance`. -/
theorem c1_custody_pool_tracks_balance (st st' : VaultState)
    (c o a tgt bp : Nat) (now : Int) (hinv : poolInvariant st) :
    (createLockbox st c o tgt now bp = .ok st' → poolInvariant st') ∧
    (deposit st c o a = .ok st' → poolInvariant st' ∧
      st'.pools o = st.pools o + a) ∧
    (withdraw st c o a = .ok st' → poolInvariant st' ∧
      st'.pools o + a = st.pools o) ∧
    (emergencyWithdraw st c o = .ok st' → poolInvariant st' ∧
      ∀ r, st.records o = some r →
        st'.pools o + r.currentBalance = st.pools o) ∧
    (closeLockbox st c o = .ok st' → poolInvariant st') := by
  refine ⟨?_, ?_, ?_, ?_, ?_⟩
  · intro h
    obtain ⟨hco, hne, hnone, hst⟩ := createLockbox_ok_elim h
    subst hst
    intro j r' hr'
    by_cases ho : j = o
    · simp [updFn, ho] at hr' ⊢
      rw [← hr']
    · simp [updFn, ho] at hr' ⊢
      exact hinv j r' hr'
  · intro h
    obtain ⟨r, hr, hcr, ha0, hw, hov, hst⟩ := deposit_ok_elim h
    subst hst
    constructor
    · intro j r' hr'
      by_cases ho : j = o
      · simp [updFn, ho] at hr' ⊢
        rw [← hr']
        simp [hinv o r hr]
      · simp [updFn, ho] at hr' ⊢
        exact hinv j r' hr'
    · simp [updFn]
  · intro h
    obtain ⟨r, hr, hcr, hfl, ha0, hle, hst⟩ := withdraw_ok_elim h
    subst hst
    have hpool : st.pools o = r.currentBalance := hinv o r hr
    constructor
    · intro j r' hr'
      by_cases ho : j = o
      · simp [updFn, ho] at hr' ⊢
        rw [← hr']
        simp [hpool]
      · simp [updFn, ho] at hr' ⊢
        exact hinv j r' hr'
    · simp [updFn, hpool]
      omega
  · intro h
    obtain ⟨r, hr, hcr, hne, hst⟩ := emergencyWithdraw_ok_elim h
    subst hst
    have hpool : st.pools o = r.currentBalance := hinv o r hr
    constructor
    · intro j r' hr'
      by_cases ho : j = o
      · simp [updFn, ho] at hr'
      · simp [updFn, ho] at hr' ⊢
        exact hinv j r' hr'
    · intro r2 hr2
      rw [hr] at hr2
      injection hr2 with hr2
      subst hr2
      simp [updFn, hpool]
  · intro h
    obtain ⟨r, hr, hcr, h0, hst⟩ := closeLockbox_ok_elim h
    subst hst
    intro j r' hr'
    by_cases ho : j = o
    · simp [updFn, ho] at hr'
    · simp [updFn, ho] at hr'
      exact hinv j r' hr'

/-- C1 witness: the custody invariant holds for the concrete below-target
state and is preserved by the concrete deposit of 4 lamports, which adds
exactly 4 to the custody pool. -/
theorem c1_custody_witness :
    poolInvariant stBelow ∧ deposit stBelow 0 0 4 = .ok stDep ∧
    poolInvariant stDep ∧ stDep.pools 0 = stBelow.pools 0 + 4 := by
  have hinv : poolInvariant stBelow := by
    intro j r h
    by_cases hj : j = 0
    · subst hj
      simp [stBelow] at h
      simp [stBelow, ← h, rBelow]
    · simp [stBelow, hj] at h
  have hd : deposit stBelow 0 0 4 = .ok stDep := rfl
  have H := (c1_custody_pool_tracks_balance stBelow stDep 0 0 4 5 255 0 hinv).2.1 hd
  exact ⟨hinv, hd, H.1, H.2⟩

/-- C8: for a fresh owner and any positive target, create succeeds,
allocating a record with zero balance stored under the owner's own key
(keeping every record keyed by its owner, hence at most one vault per
identity), and a second create for the same owner always fails with
`AlreadyExists`. -/
theorem c8_create_exactly_once (st : VaultState) (o tgt bp : Nat) (now : Int)
    (htgt : 0 < tgt) (hnone : st.records o = none) :
    ∃ st1, createLockbox st o o tgt now bp = .ok st1 ∧
      st1.records o = some { owner := o, targetAmount := tgt,
                             currentBalance := 0, createdAt := now,
                             hasReachedTarget := false, bump := bp } ∧
      (ownerKeyed st → ownerKeyed st1) ∧
      ∀ tgt2 bp2, ∀ now2 : Int, 0 < tgt2 →
        createLockbox st1 o o tgt2 now2 bp2 = .error .AlreadyExists := by
  have hne : tgt ≠ 0 := Nat.pos_iff_ne_zero.mp htgt
  refine ⟨{ wallets := updFn st.wallets o (st.wallets o - rentReserve)
            records := updFn st.records o
              (some { owner := o, targetAmount := tgt, currentBalance := 0,
                      createdAt := now, hasReachedTarget := false, bump := bp })
            pools := updFn st.pools o 0 }, ?_, ?_, ?_, ?_⟩
  · simp [createLockbox, hnone, hne]
  · simp [updFn]
  · intro hok j r' hr'
    by_cases hj : j = o
    · simp [updFn, hj] at hr'
      rw [← hr']
      exact hj.symm
    · simp [updFn, hj] at hr'
      exact hok j r' hr'
  · intro tgt2 bp2 now2 h2
    have hne2 : tgt2 ≠ 0 := Nat.pos_iff_ne_zero.mp h2
    simp [createLockbox, hne2, updFn]

/-- C8 witness: identity 0 creates a vault with target 5 in the empty state;
a second create with any positive target then reports `AlreadyExists`. -/
theorem c8_create_exactly_once_witness :
    ∃ st1, createLockbox emptyState 0 0 5 0 255 = .ok st1 ∧
      st1.records 0 = some { owner := 0, targetAmount := 5,
                             currentBalance := 0, createdAt := 0,
                             hasReachedTarget := false, bump := 255 } ∧
      (ownerKeyed emptyState → ownerKeyed st1) ∧
      ∀ tgt2 bp2, ∀ now2 : Int, 0 < tgt2 →
        createLockbox st1 0 0 tgt2 now2 bp2 = .error .AlreadyExists :=
  c8_create_exactly_once emptyState 0 5 255 0 (by decide) rfl

theorem depositSeq_ok_elim (ds : List Nat) :
    ∀ (st st' : VaultState) (c o : Nat) (r : LockBox),
      st.records o = some r →
      r.hasReachedTarget = decide (r.targetAmount ≤ r.currentBalance) →
      depositSeq st c o ds = .ok st' →
      ∃ r', st'.records o = some r' ∧ r'.owner = r.owner ∧
        r'.targetAmount = r.targetAmount ∧
        r'.currentBalance = r.currentBalance + ds.sum ∧
        r'.hasReachedTarget = decide (r'.targetAmount ≤ r'.currentBalance) := by
  induction ds with
  | nil =>
    intro st st' c o r hr hfl h
    simp [depositSeq] at h
    subst h
    exact ⟨r, hr, rfl, rfl, by simp, hfl⟩
  | cons a rest ih =>
    intro st st' c o r hr hfl h
    unfold depositSeq at h
    cases hd : deposit st c o a with
    | error e =>
      rw [hd] at h
      simp at h
    | ok st1 =>
      rw [hd] at h
      simp only [] at h
      obtain ⟨r0, hr0, hcr, ha0, hw, hov, hst1⟩ := deposit_ok_elim hd
      rw [hr] at hr0
      injection hr0 with hr0
      subst hr0
      have hrec1 : st1.records o = some { r with
          currentBalance := r.currentBalance + a
          hasReachedTarget :=
            decide (r.targetAmount ≤ r.currentBalance + a) } := by
        rw [hst1]; simp [updFn]
      obtain ⟨r', h1, h2, h3, h4, h5⟩ := ih st1 st' c o _ hrec1 rfl h
      have h4' : r'.currentBalance = r.currentBalance + a + rest.sum := h4
      refine ⟨r', h1, h2, h3, ?_, h5⟩
      simp only [List.sum_cons]
      omega

/-- C5: starting from a freshly created vault with target `tgt`, any
successful sequence of deposits leaves `currentBalance` equal to the sum of
the deposited amounts and the stored `hasReachedTarget` flag equal to the
comparison of that sum with `tgt`; moreover after any single successful
deposit the stored flag equals the live comparison, so it is never an
independent source of truth. -/
theorem c5_deposits_accumulate (st st1 st' : VaultState) (c o tgt bp : Nat)
    (now : Int) (ds : List Nat)
    (hcr : createLockbox st c o tgt now bp = .ok st1)
    (hseq : depositSeq st1 c o ds = .ok st') :
    (∃ r', st'.records o = some r' ∧ r'.currentBalance = ds.sum ∧
      r'.targetAmount = tgt ∧
      r'.hasReachedTarget = decide (tgt ≤ ds.sum)) ∧
    (∀ (st2 st3 : VaultState) (c2 o2 a : Nat) (r3 : LockBox),
      deposit st2 c2 o2 a = .ok st3 → st3.records o2 = some r3 →
      r3.hasReachedTarget = decide (r3.targetAmount ≤ r3.currentBalance)) := by
  constructor
  · obtain ⟨hco, hne, hnone, hst1⟩ := createLockbox_ok_elim hcr
    have hrec1 : st1.records o = some { owner := o, targetAmount := tgt,
                                        currentBalance := 0, createdAt := now,
                                        hasReachedTarget := false,
                                        bump := bp } := by
      rw [hst1]; simp [updFn]
    have hfl1 : (false : Bool) = decide (tgt ≤ 0) := by
      simp [Nat.le_zero, hne]
    obtain ⟨r', h1, h2, h3, h4, h5⟩ :=
      depositSeq_ok_elim ds st1 st' c o _ hrec1 hfl1 hseq
    have h3' : r'.targetAmount = tgt := h3
    have h4' : r'.currentBalance = 0 + ds.sum := h4
    refine ⟨r', h1, by omega, h3', ?_⟩
    rw [h5, h3', h4']
    simp
  · intro st2 st3 c2 o2 a r3 hd hr3
    obtain ⟨r, hrd, hcd, had, hwd, hod, hst3⟩ := deposit_ok_elim hd
    rw [hst3] at hr3
    simp [updFn] at hr3
    rw [← hr3]

/-- C5 witness: after creating a vault with target 5 and depositing
2, 2, 1 the balance is the sum 5 and the flag equals the comparison
(true, since 5 >= 5). -/
theorem c5_deposits_accumulate_witness :
    createLockbox emptyState 0 0 5 0 255 = .ok stC5a ∧
    depositSeq stC5a 0 0 [2, 2, 1] = .ok stC5b ∧
    (∃ r', stC5b.records 0 = some r' ∧ r'.currentBalance = [2, 2, 1].sum ∧
      r'.targetAmount = 5 ∧
      r'.hasReachedTarget = decide ((5 : Nat) ≤ [2, 2, 1].sum)) := by
  have h1 : createLockbox emptyState 0 0 5 0 255 = .ok stC5a := rfl
  have h2 : depositSeq stC5a 0 0 [2, 2, 1] = .ok stC5b := rfl
  exact ⟨h1, h2,
    (c5_deposits_accumulate emptyState stC5a stC5b 0 0 5 255 0 [2, 2, 1]
      h1 h2).1⟩

/-- C10: create accepts any positive target up to the full `u64` width of
the balance unit; the balance addition in deposit detects `u64` overflow
and fails closed with `ArithmeticOverflow` (no successor state is produced,
so nothing wraps); and the subtraction in withdraw never wraps: on success
the old balance is exactly the new balance plus the withdrawn amount. -/
theorem c10_overflow_fail_closed (st : VaultState) (c o a tgt bp : Nat)
    (now : Int) (r : LockBox) :
    (0 < tgt → tgt < U64SIZE → c = o → st.records o = none →
      ∃ st1, createLockbox st c o tgt now bp = .ok st1 ∧
        ∃ r1, st1.records o = some r1 ∧ r1.targetAmount = tgt) ∧
    (st.records o = some r → c = r.owner → a ≠ 0 → a ≤ st.wallets c →
      U64SIZE ≤ r.currentBalance + a →
      deposit st c o a = .error .ArithmeticOverflow) ∧
    (st.records o = some r → ∀ st', withdraw st c o a = .ok st' →
      ∃ r', st'.records o = some r' ∧
        r'.currentBalance + a = r.currentBalance) := by
  refine ⟨?_, ?_, ?_⟩
  · intro htgt hlt hco hnone
    have hne : tgt ≠ 0 := Nat.pos_iff_ne_zero.mp htgt
    refine ⟨{ wallets := updFn st.wallets c (st.wallets c - rentReserve)
              records := updFn st.records o
                (some { owner := o, targetAmount := tgt, currentBalance := 0,
                        createdAt := now, hasReachedTarget := false,
                        bump := bp })
              pools := updFn st.pools o 0 },
            ?_,
            { owner := o, targetAmount := tgt, currentBalance := 0,
              createdAt := now, hasReachedTarget := false, bump := bp },
            ?_, rfl⟩
    · simp [createLockbox, hco, hnone, hne]
    · simp [updFn]
  · intro hr hc ha hw hov
    subst hc
    have hw' : ¬ st.wallets r.owner < a := Nat.not_lt.mpr hw
    simp [deposit, hr, ha, hw', hov]
  · intro hr st' hok
    obtain ⟨r0, hr0, hcr, hfl, ha0, hle, hst'⟩ := withdraw_ok_elim hok
    rw [hr] at hr0
    injection hr0 with hr0
    subst hr0
    refine ⟨{ r with
               currentBalance := r.currentBalance - a
               hasReachedTarget :=
                 decide (r.targetAmount ≤ r.currentBalance - a) }, ?_, ?_⟩
    · rw [hst']; simp [updFn]
    · exact Nat.sub_add_cancel hle

/-- C10 witness: create accepts the maximal `u64` target `2 ^ 64 - 1`, and a
deposit of 2 onto a balance of `2 ^ 64 - 1` is refused with
`ArithmeticOverflow`. -/
theorem c10_overflow_fail_closed_witness :
    (∃ st1, createLockbox emptyState 0 0 (U64SIZE - 1) 0 255 = .ok st1 ∧
      ∃ r1, st1.records 0 = some r1 ∧ r1.targetAmount = U64SIZE - 1) ∧
    deposit stNearMax 0 0 2 = .error .ArithmeticOverflow :=
  ⟨(c10_overflow_fail_closed emptyState 0 0 2 (U64SIZE - 1) 255 0
      rNearMax).1 (by decide) (by decide) rfl rfl,
   (c10_overflow_fail_closed stNearMax 0 0 2 (U64SIZE - 1) 255 0
      rNearMax).2.1 rfl rfl (by decide) (by decide) (by decide)⟩
